import Mathlib

/-!
Verification of the dt-core decision-and-dispatch pipeline.

Python strings are embedded as `List Char`; the helpers below model the
Python string operations used by the repository (strip, lower, find,
splitlines, split, join, startswith, the containment test `in`).
Machine I/O (subprocess execution, SMTP, HTTP, the clock, file reads) is
passed in as explicit parameters, so every function here is pure and
executable.
-/

/-- The default whitespace set stripped by Python `str.strip` (ASCII part). -/
def pyIsSpace (c : Char) : Bool :=
  c = ' ' || c = '\t' || c = '\n' || c = '\x0d' || c = '\x0b' || c = '\x0c'

/-- Python `s.lstrip()`. -/
def pyLstrip (s : List Char) : List Char := s.dropWhile pyIsSpace

/-- Python `s.rstrip()`. -/
def pyRstrip (s : List Char) : List Char := (s.reverse.dropWhile pyIsSpace).reverse

/-- Python `s.strip()`. -/
def pyStrip (s : List Char) : List Char := pyRstrip (pyLstrip s)

/-- Python `s.lower()` (ASCII). -/
def pyLower (s : List Char) : List Char := s.map Char.toLower

/-- Python `s.upper()` (ASCII). -/
def pyUpper (s : List Char) : List Char := s.map Char.toUpper

/-- `hasPref p s` is true when `p` is an initial segment of `s`
(Python `s.startswith(p)` reads `hasPref p s`). -/
def hasPref : List Char → List Char → Bool
  | [], _ => true
  | _ :: _, [] => false
  | a :: p, b :: s => a == b && hasPref p s

/-- Index of the first occurrence of `pat` in `s`, Python `s.find(pat)`
(with `none` for `-1`). -/
def listFind (pat : List Char) : List Char → Option Nat
  | [] => if hasPref pat [] then some 0 else none
  | c :: t => if hasPref pat (c :: t) then some 0 else (listFind pat t).map (fun n => n + 1)

/-- Python `pat in s`. -/
def pyContains (s pat : List Char) : Bool := (listFind pat s).isSome

/-- Number of positions of `s` at which `pat` occurs. -/
def countOccur (pat s : List Char) : Nat :=
  ((List.range (s.length + 1)).filter (fun i => hasPref pat (s.drop i))).length

/-- Python `sep.join(parts)`. -/
def pyJoin (sep : List Char) : List (List Char) → List Char
  | [] => []
  | [x] => x
  | x :: y :: r => x ++ sep ++ pyJoin sep (y :: r)

/-- Accumulator-passing worker for `pyWords`. -/
def wordsAux (acc : List Char) : List Char → List (List Char)
  | [] => if acc = [] then [] else [acc.reverse]
  | c :: t =>
    if pyIsSpace c then
      (if acc = [] then wordsAux [] t else acc.reverse :: wordsAux [] t)
    else wordsAux (c :: acc) t

/-- Python `s.split()` with no argument: split on whitespace runs, no
empty tokens. -/
def pyWords (s : List Char) : List (List Char) := wordsAux [] s

/-- Split on a single separator character, keeping empty segments
(Python `s.split(sep)` for one-character `sep`). -/
def splitChar (sep : Char) (acc : List Char) : List Char → List (List Char)
  | [] => [acc.reverse]
  | c :: t => if c = sep then acc.reverse :: splitChar sep [] t else splitChar sep (c :: acc) t

/-- Python `s.splitlines()` for texts whose line breaks are `\n`:
no trailing empty line, and `[]` for the empty string. -/
def pySplitlines (s : List Char) : List (List Char) :=
  if s = [] then []
  else if s.getLast? = some '\n' then (splitChar '\n' [] s).dropLast
  else splitChar '\n' [] s

/-! ### Basic lemmas about the string model -/

theorem hasPref_nil_left (s : List Char) : hasPref [] s = true := by
  cases s <;> rfl

theorem hasPref_cons_nil (a : Char) (p : List Char) : hasPref (a :: p) [] = false := rfl

theorem hasPref_append_right {p s : List Char} (t : List Char)
    (h : hasPref p s = true) : hasPref p (s ++ t) = true := by
  induction p generalizing s with
  | nil => exact hasPref_nil_left _
  | cons a p ih =>
    cases s with
    | nil => simp [hasPref] at h
    | cons b s =>
      simp only [hasPref, Bool.and_eq_true] at h ⊢
      exact ⟨h.1, ih h.2⟩

theorem hasPref_refl (p : List Char) : hasPref p p = true := by
  induction p with
  | nil => rfl
  | cons a p ih => simp [hasPref, ih]

theorem hasPref_length_le {p s : List Char} (h : hasPref p s = true) : p.length ≤ s.length := by
  induction p generalizing s with
  | nil => simp
  | cons a p ih =>
    cases s with
    | nil => simp [hasPref] at h
    | cons b s =>
      simp only [hasPref, Bool.and_eq_true] at h
      simpa [List.length_cons, Nat.succ_le_succ_iff] using ih h.2

theorem hasPref_of_append_le {p x : List Char} (y : List Char)
    (hlen : p.length ≤ x.length) (h : hasPref p (x ++ y) = true) : hasPref p x = true := by
  induction p generalizing x with
  | nil => exact hasPref_nil_left _
  | cons a p ih =>
    cases x with
    | nil => simp at hlen
    | cons b x =>
      simp only [List.cons_append, hasPref, Bool.and_eq_true] at h ⊢
      exact ⟨h.1, ih (Nat.succ_le_succ_iff.mp (by simpa using hlen)) h.2⟩

theorem hasPref_boundary_mem {p x y : List Char} {c : Char}
    (hlen : x.length < p.length) (h : hasPref p (x ++ c :: y) = true) : c ∈ p := by
  induction x generalizing p with
  | nil =>
    cases p with
    | nil => simp at hlen
    | cons a p =>
      simp only [List.nil_append, hasPref, Bool.and_eq_true, beq_iff_eq] at h
      simp [h.1]
  | cons b x ih =>
    cases p with
    | nil => simp at hlen
    | cons a p =>
      simp only [List.cons_append, hasPref, Bool.and_eq_true] at h
      exact List.mem_cons_of_mem _ (ih (Nat.succ_lt_succ_iff.mp (by simpa using hlen)) h.2)

theorem listFind_none_iff {pat s : List Char} :
    listFind pat s = none ↔ ∀ i, hasPref pat (s.drop i) = false := by
  induction s with
  | nil =>
    simp only [listFind, List.drop_nil]
    constructor
    · intro h i
      by_cases hp : hasPref pat [] = true
      · simp [hp] at h
      · simpa using hp
    · intro h
      simp [h 0]
  | cons c t ih =>
    simp only [listFind]
    by_cases hp : hasPref pat (c :: t) = true
    · simp only [hp, if_true]
      constructor
      · intro h; exact absurd h (by simp)
      · intro h; have := h 0; simp [hp] at this
    · rw [if_neg hp]
      constructor
      · intro h i
        have ht : listFind pat t = none := by
          cases hft : listFind pat t with
          | none => rfl
          | some n => rw [hft] at h; simp at h
        cases i with
        | zero => simpa using (Bool.not_eq_true _).mp hp
        | succ i => simpa using (ih.mp ht) i
      · intro h
        have ht : listFind pat t = none := ih.mpr (fun i => by simpa using h (i + 1))
        simp [ht]

theorem listFind_least {pat s : List Char} {i : Nat} (h : listFind pat s = some i) :
    hasPref pat (s.drop i) = true ∧ ∀ j, j < i → hasPref pat (s.drop j) = false := by
  induction s generalizing i with
  | nil =>
    simp only [listFind] at h
    by_cases hp : hasPref pat [] = true
    · simp only [hp, if_true, Option.some.injEq] at h
      subst h
      exact ⟨by simpa using hp, by intro j hj; omega⟩
    · simp [hp] at h
  | cons c t ih =>
    simp only [listFind] at h
    by_cases hp : hasPref pat (c :: t) = true
    · simp only [hp, if_true, Option.some.injEq] at h
      subst h
      exact ⟨by simpa using hp, by intro j hj; omega⟩
    · rw [if_neg hp] at h
      cases hft : listFind pat t with
      | none => rw [hft] at h; simp at h
      | some n =>
        rw [hft] at h
        simp only [Option.map_some'] at h
        obtain rfl : n + 1 = i := by simpa using h
        have := ih hft
        refine ⟨by simpa using this.1, ?_⟩
        intro j hj
        cases j with
        | zero => simpa using (Bool.not_eq_true _).mp hp
        | succ j => simpa using this.2 j (by omega)

theorem listFind_pat_ne_nil {pat s : List Char} (h : listFind pat s = none) : pat ≠ [] := by
  intro hpat
  subst hpat
  have := listFind_none_iff.mp h 0
  simp [hasPref_nil_left] at this

theorem listFind_lt_length {pat s : List Char} {i : Nat}
    (hpat : pat ≠ []) (h : listFind pat s = some i) : i < s.length := by
  have h1 := (listFind_least h).1
  by_contra hlt
  have : s.drop i = [] := List.drop_eq_nil_of_le (by omega)
  rw [this] at h1
  cases pat with
  | nil => exact hpat rfl
  | cons a p => simp [hasPref] at h1

theorem drop_append_le {a : List Char} (b : List Char) :
    ∀ i, i ≤ a.length → (a ++ b).drop i = a.drop i ++ b := by
  induction a with
  | nil =>
    intro i hi
    have : i = 0 := by simpa using hi
    subst this
    simp
  | cons x a ih =>
    intro i hi
    cases i with
    | zero => simp
    | succ i => simpa using ih i (by simpa using hi)

theorem drop_append_ge {a : List Char} (b : List Char) :
    ∀ i, a.length ≤ i → (a ++ b).drop i = b.drop (i - a.length) := by
  induction a with
  | nil => intro i _; simp
  | cons x a ih =>
    intro i hi
    cases i with
    | zero => simp at hi
    | succ i => simpa using ih i (by simpa using hi)

theorem hasPref_of_take {p l : List Char} {n : Nat}
    (h : hasPref p (l.take n) = true) : hasPref p l = true := by
  have := hasPref_append_right (l.drop n) h
  rwa [List.take_append_drop] at this

theorem noOcc_take_first {pat s : List Char} {i : Nat}
    (hpat : pat ≠ []) (h : listFind pat s = some i) : listFind pat (s.take i) = none := by
  rw [listFind_none_iff]
  intro j
  by_cases hj : j < i
  · by_contra hocc
    have hocc' : hasPref pat ((s.take i).drop j) = true := by
      simpa using (Bool.not_eq_false _).mp hocc
    have h2 : (s.take i).drop j = (s.drop j).take (i - j) := by
      rw [List.drop_take]
    rw [h2] at hocc'
    have : hasPref pat (s.drop j) = true := hasPref_of_take hocc'
    exact absurd this (by simp [(listFind_least h).2 j hj])
  · have : (s.take i).drop j = [] :=
      List.drop_eq_nil_of_le (by simp [List.length_take]; omega)
    rw [this]
    cases pat with
    | nil => exact absurd rfl hpat
    | cons a p => rfl

theorem noOcc_front {pat s t : List Char}
    (h : listFind pat (s ++ t) = none) : listFind pat s = none := by
  have hpat : pat ≠ [] := listFind_pat_ne_nil h
  rw [listFind_none_iff]
  intro i
  by_cases hi : i ≤ s.length
  · by_contra hocc
    have hocc' : hasPref pat (s.drop i) = true := by
      simpa using (Bool.not_eq_false _).mp hocc
    have : hasPref pat ((s ++ t).drop i) = true := by
      rw [drop_append_le t i hi]
      exact hasPref_append_right t hocc'
    exact absurd this (by simp [listFind_none_iff.mp h i])
  · have : s.drop i = [] := List.drop_eq_nil_of_le (by omega)
    rw [this]
    cases pat with
    | nil => exact absurd rfl hpat
    | cons a p => rfl

theorem noOcc_back {pat s t : List Char}
    (h : listFind pat (t ++ s) = none) : listFind pat s = none := by
  rw [listFind_none_iff]
  intro i
  have h2 : (t ++ s).drop (t.length + i) = s.drop i := by
    rw [drop_append_ge s (t.length + i) (by omega)]
    congr 1
    omega
  have := listFind_none_iff.mp h (t.length + i)
  rwa [h2] at this

theorem noOcc_middle {pat a b : List Char} {c : Char}
    (hc : c ∉ pat)
    (ha : listFind pat a = none) (hb : listFind pat b = none) :
    listFind pat (a ++ c :: b) = none := by
  rw [listFind_none_iff]
  intro i
  by_cases hi : i ≤ a.length
  · rw [drop_append_le (c :: b) i hi]
    by_contra hocc
    have hocc' : hasPref pat (a.drop i ++ c :: b) = true := by
      simpa using (Bool.not_eq_false _).mp hocc
    by_cases hlen : pat.length ≤ (a.drop i).length
    · have : hasPref pat (a.drop i) = true := hasPref_of_append_le _ hlen hocc'
      exact absurd this (by simp [listFind_none_iff.mp ha i])
    · exact hc (hasPref_boundary_mem (by omega) hocc')
  · rw [drop_append_ge (c :: b) i (by omega)]
    have h1 : 1 ≤ i - a.length := by omega
    have h2 : (c :: b).drop (i - a.length) = b.drop (i - a.length - 1) := by
      cases hk : i - a.length with
      | zero => omega
      | succ k => simp
    rw [h2]
    exact listFind_none_iff.mp hb _

theorem noOcc_pyJoin {pat : List Char} {c : Char} (hpat : pat ≠ []) (hc : c ∉ pat) :
    ∀ L : List (List Char), (∀ l ∈ L, listFind pat l = none) →
      listFind pat (pyJoin [c] L) = none := by
  intro L
  induction L with
  | nil =>
    intro _
    cases pat with
    | nil => exact absurd rfl hpat
    | cons a p => rfl
  | cons x xs ih =>
    intro h
    cases xs with
    | nil => exact h x (by simp)
    | cons y r =>
      have hx := h x (by simp)
      have hrest : listFind pat (pyJoin [c] (y :: r)) = none :=
        ih (fun l hl => h l (by simp [hl]))
      have : x ++ [c] ++ pyJoin [c] (y :: r) = x ++ c :: pyJoin [c] (y :: r) := by simp
      rw [pyJoin, this]
      exact noOcc_middle hc hx hrest

theorem noOcc_dropWhile {pat s : List Char} {p : Char → Bool}
    (h : listFind pat s = none) : listFind pat (s.dropWhile p) = none := by
  induction s with
  | nil => simpa using h
  | cons c t ih =>
    rw [List.dropWhile_cons]
    by_cases hp : p c = true
    · rw [if_pos hp]
      apply ih
      exact noOcc_back (t := [c]) (by simpa using h)
    · rw [if_neg hp]
      exact h

theorem pyRstrip_append (s : List Char) :
    pyRstrip s ++ (s.reverse.takeWhile pyIsSpace).reverse = s := by
  rw [pyRstrip, ← List.reverse_append, List.takeWhile_append_dropWhile, List.reverse_reverse]

theorem noOcc_pyRstrip {pat s : List Char}
    (h : listFind pat s = none) : listFind pat (pyRstrip s) = none := by
  apply noOcc_front (t := (s.reverse.takeWhile pyIsSpace).reverse)
  rw [pyRstrip_append]
  exact h

theorem noOcc_pyStrip {pat s : List Char}
    (h : listFind pat s = none) : listFind pat (pyStrip s) = none :=
  noOcc_pyRstrip (noOcc_dropWhile h)

theorem dropWhile_head_false {p : Char → Bool} {l : List Char} {c : Char} {t : List Char}
    (h : l.dropWhile p = c :: t) : p c = false := by
  induction l with
  | nil => simp at h
  | cons d l ih =>
    rw [List.dropWhile_cons] at h
    by_cases hd : p d = true
    · rw [if_pos hd] at h
      exact ih h
    · rw [if_neg hd] at h
      cases h
      simpa using hd

theorem pyStrip_head_not_space {v : List Char} {c : Char} {t : List Char}
    (h : pyStrip v = c :: t) : pyIsSpace c = false := by
  have hfront := pyRstrip_append (pyLstrip v)
  rw [pyStrip] at h
  rw [h] at hfront
  have h2 : (pyLstrip v : List Char) = c :: (t ++ ((pyLstrip v).reverse.takeWhile pyIsSpace).reverse) := by
    conv_lhs => rw [← hfront]
    simp
  rw [pyLstrip] at h2
  exact dropWhile_head_false h2

theorem pyStrip_revhead_not_space {v : List Char} {c : Char} {t : List Char}
    (h : (pyStrip v).reverse = c :: t) : pyIsSpace c = false := by
  have h2 : (pyStrip v).reverse = (pyLstrip v).reverse.dropWhile pyIsSpace := by
    rw [pyStrip, pyRstrip, List.reverse_reverse]
  rw [h2] at h
  exact dropWhile_head_false h

theorem pyLstrip_eq_self {l : List Char}
    (hhead : ∀ c t, l = c :: t → pyIsSpace c = false) : pyLstrip l = l := by
  cases hl : l with
  | nil => rfl
  | cons c t =>
    rw [pyLstrip, List.dropWhile_cons, if_neg]
    simp [hhead c t hl]

theorem pyRstrip_eq_self {l : List Char}
    (hlast : ∀ c t, l.reverse = c :: t → pyIsSpace c = false) : pyRstrip l = l := by
  cases hl : l.reverse with
  | nil =>
    have : l = [] := by simpa using congrArg List.reverse hl
    simp [this, pyRstrip]
  | cons c t =>
    rw [pyRstrip, hl, List.dropWhile_cons, if_neg (by simp [hlast c t hl])]
    rw [← hl, List.reverse_reverse]

theorem pyStrip_eq_self {l : List Char}
    (hhead : ∀ c t, l = c :: t → pyIsSpace c = false)
    (hlast : ∀ c t, l.reverse = c :: t → pyIsSpace c = false) : pyStrip l = l := by
  rw [pyStrip, pyLstrip_eq_self hhead, pyRstrip_eq_self hlast]

theorem pyJoin_head_cons {sep x : List Char} {rest : List (List Char)} {c : Char} {t : List Char}
    (hx : x = c :: t) : ∃ r, pyJoin sep (x :: rest) = c :: r := by
  cases rest with
  | nil => exact ⟨t, by simp [pyJoin, hx]⟩
  | cons y r => exact ⟨t ++ sep ++ pyJoin sep (y :: r), by simp [pyJoin, hx]⟩

theorem pyJoin_revhead {sep : List Char} :
    ∀ (L : List (List Char)) (x : List Char) (c : Char) (t : List Char),
      L.getLast? = some x → x.reverse = c :: t →
      ∃ r, (pyJoin sep L).reverse = c :: r := by
  intro L
  induction L with
  | nil => intro x c t h _; simp at h
  | cons z zs ih =>
    intro x c t hlast hx
    cases zs with
    | nil =>
      have : z = x := by simpa using hlast
      subst this
      exact ⟨t, by simpa [pyJoin] using hx⟩
    | cons y r =>
      have hlast2 : (y :: r).getLast? = some x := by
        simpa [List.getLast?_cons_cons] using hlast
      obtain ⟨r2, hr2⟩ := ih x c t hlast2 hx
      refine ⟨r2 ++ sep.reverse ++ z.reverse, ?_⟩
      rw [pyJoin]
      simp [List.reverse_append, hr2]

theorem occurs_pyJoin_of_mem {sep x : List Char} {L : List (List Char)}
    (hx : x ∈ L) : ∃ i, hasPref x ((pyJoin sep L).drop i) = true := by
  induction L with
  | nil => simp at hx
  | cons z zs ih =>
    rcases List.mem_cons.mp hx with rfl | hmem
    · cases zs with
      | nil => exact ⟨0, by simpa [pyJoin] using hasPref_refl x⟩
      | cons y r =>
        refine ⟨0, ?_⟩
        rw [pyJoin]
        simpa using hasPref_append_right _ (hasPref_append_right sep (hasPref_refl x))
    · cases zs with
      | nil => simp at hmem
      | cons y r =>
        obtain ⟨i, hi⟩ := ih hmem
        refine ⟨(z ++ sep).length + i, ?_⟩
        rw [pyJoin]
        have hdr : (z ++ sep ++ pyJoin sep (y :: r)).drop ((z ++ sep).length + i)
            = (pyJoin sep (y :: r)).drop i := by
          rw [drop_append_ge _ _ (by omega)]
          congr 1
          omega
        rw [hdr]
        exact hi

theorem listFind_isSome_of_occ {pat s : List Char} {i : Nat}
    (h : hasPref pat (s.drop i) = true) : listFind pat s ≠ none := by
  intro hnone
  have := listFind_none_iff.mp hnone i
  rw [h] at this
  exact Bool.noConfusion this

/-!
### Generation invoker (`decision_engine._run_llama`)

The subprocess run is I/O; its observable result is passed in as a
`SubprocResult`.  `completed stdout` models a normal exit (with
`result.stdout` possibly `None`), `timedOut partialStdout` models
`subprocess.TimeoutExpired` carrying `e.stdout`, and `raised` models any
other exception from the invocation.  The availability checks
(`MODEL.exists()`, `os.path.exists(LLAMA)`, `_ram_too_low()`) are host
observations and enter as booleans.
-/

/-- Observable result of the llama subprocess invocation. -/
inductive SubprocResult where
  | completed (stdout : Option (List Char))
  | timedOut (partialStdout : Option (List Char))
  | raised
deriving DecidableEq

/-- The in-band hard-failure sentinel string `"[LLM_ERROR]"`. -/
def llmErrorS : List Char := "[LLM_ERROR]".data

/-- The in-band resource-limit sentinel string `"[LLM_RAM_LIMIT]"`. -/
def llmRamLimitS : List Char := "[LLM_RAM_LIMIT]".data

/-- `decision_engine._run_llama`: returns the stripped stdout, salvages the
stripped partial stdout on timeout, and signals failure with the in-band
sentinel strings. -/
def run_llama (modelExists llamaExists ramTooLow : Bool) (res : SubprocResult) : List Char :=
  if !(modelExists && llamaExists) then llmErrorS
  else if ramTooLow then llmRamLimitS
  else
    match res with
    | SubprocResult.completed stdout =>
      let out := pyStrip (stdout.getD [])
      if out = [] then llmErrorS else out
    | SubprocResult.timedOut p =>
      let out := pyStrip (p.getD [])
      if out = [] then llmErrorS else out
    | SubprocResult.raised => llmErrorS

/-- The spec's `GenerationOutcome` variants. -/
inductive GenOutcome where
  | success (text : List Char)
  | resourceUnavailable
  | hardFailure
deriving DecidableEq

/-- How `generate_answer` interprets a `_run_llama` return value: the two
sentinel strings route to the fallback engine (`raw in ("[LLM_ERROR]",
"[LLM_RAM_LIMIT]")`), everything else is treated as generation success. -/
def outcomeOf (raw : List Char) : GenOutcome :=
  if raw = llmErrorS then GenOutcome.hardFailure
  else if raw = llmRamLimitS then GenOutcome.resourceUnavailable
  else GenOutcome.success raw

/-!
### Deterministic fallback engine (`generate_answer`, fallback branch)
-/

/-- Fallback answer for questions mentioning `security+`. -/
def secAnswer : List Char :=
  "You should continue preparing for the Security+ exam and keep consistent study habits.".data

/-- Fallback answer for job questions when a Schedule A letter is known. -/
def schedAnswer : List Char :=
  "Use your Schedule A letter and apply to VA, DHS, and Social Security IT or cyber roles.".data

/-- Fallback answer for job questions with no Schedule A context. -/
def focusAnswer : List Char :=
  "Focus on stable federal IT and cybersecurity positions.".data

/-- Fallback answer for running questions. -/
def runAnswer : List Char :=
  "You should continue running with Front Runners on Tuesday, Thursday, Saturday, and Sunday.".data

/-- Fallback answer for diet questions. -/
def carbAnswer : List Char :=
  "Reduce carbs, emphasize lean protein, hydrate well, and maintain sleep stability.".data

/-- The catch-all safety default of the fallback engine. -/
def defaultAnswer : List Char :=
  "Choose the option that is safest, most stable, and moves you closer to your long-term goals.".data

/-- The rule-based fallback of `generate_answer` (the branch taken when
`raw` is one of the sentinel strings).  `facts` and `goals` are the
contents of the memory files. -/
def fallback_answer (question facts goals : List Char) : List Char :=
  let mem := pyLower (facts ++ '\n' :: goals)
  let ql := pyLower question
  let answer :=
    if pyContains ql "security+".data then secAnswer
    else if pyContains ql "job".data || pyContains ql "apply".data then
      (if pyContains mem "schedule a".data || pyContains ql "schedule a".data then
        schedAnswer
      else focusAnswer)
    else if pyContains ql "run".data || pyContains ql "front runners".data then runAnswer
    else if pyContains ql "carb".data || pyContains ql "diet".data then carbAnswer
    else defaultAnswer
  pyStrip answer

/-!
### Directive extractor: output cleanup and `roadmap` fact scan
-/

/-- The reserved fact-marker keyword. -/
def roadmapKw : List Char := "roadmap".data

/-- Fuel-indexed version of the `while True` loop of `generate_answer`
that strips `roadmap` segments from one line.  Returns the remaining
visible line and the learned facts in discovery order.  The fuel only
serves termination; `roadmapLoop` supplies enough for the loop to run to
completion. -/
def roadmapLoopF : Nat → List Char → List Char × List (List Char)
  | 0, line => (line, [])
  | fuel + 1, line =>
    match listFind roadmapKw line with
    | none => (line, [])
    | some idx =>
      let before := pyRstrip (line.take idx)
      let after := pyStrip (line.drop (idx + roadmapKw.length))
      let r := roadmapLoopF fuel before
      (r.1, (if after = [] then [] else [after]) ++ r.2)

/-- The per-line `roadmap` stripping loop. -/
def roadmapLoop (line : List Char) : List Char × List (List Char) :=
  roadmapLoopF (line.length + 1) line

/-- Visible contribution of one processed line (`if line.strip():
final_lines.append(line.strip())`). -/
def visLine (l : List Char) : Option (List Char) :=
  let v := pyStrip (roadmapLoop l).1
  if v = [] then none else some v

/-- All learned facts of a line list, in order. -/
def learnedOf (lines : List (List Char)) : List (List Char) :=
  (lines.map (fun l => (roadmapLoop l).2)).flatten

/-- `final_answer = "\n".join(final_lines).strip()`. -/
def roadmapVisible (lines : List (List Char)) : List Char :=
  pyStrip (pyJoin ['\n'] (lines.filterMap visLine))

/-- The `roadmap` extraction stage applied to a cleaned body: the visible
text and the list of `LearnedFact` directives. -/
def extractRoadmap (body : List Char) : List Char × List (List Char) :=
  (roadmapVisible (pySplitlines body), learnedOf (pySplitlines body))

/-- `idx = text.lower().find("answer:"); if idx != -1: text = text[idx+7:]`. -/
def cutAnswer (text : List Char) : List Char :=
  match listFind "answer:".data (pyLower text) with
  | some idx => text.drop (idx + 7)
  | none => text

/-- The echo/junk line filter of `generate_answer` (applied to a stripped
non-empty line). -/
def isEchoLine (stripped : List Char) : Bool :=
  let upper := pyUpper stripped
  hasPref "<s>".data stripped ||
  hasPref "--temp".data stripped ||
  hasPref "QUESTION:".data upper ||
  hasPref "FACTS:".data upper ||
  hasPref "GOALS:".data upper || hasPref "GOAL:".data upper ||
  hasPref "SCRATCHPAD:".data upper || hasPref "SCRAMCAP:".data upper ||
  upper = "ANSWER:".data || upper = "ANSWER".data ||
  upper = "QUEST".data

/-- The filtered, stripped lines of the model output. -/
def filteredLines (text : List Char) : List (List Char) :=
  (pySplitlines text).filterMap (fun line =>
    let s := pyStrip line
    if s = [] then none
    else if isEchoLine s then none
    else some s)

/-- `cleaned_body = "\n".join(filtered_lines).strip()`, falling back to
`text.strip()` when filtering removed everything. -/
def cleanedBody (text : List Char) : List Char :=
  let cb := pyStrip (pyJoin ['\n'] (filteredLines text))
  if cb = [] then pyStrip text else cb

/-- `lines = cleaned_body.splitlines()` of the processed model output. -/
def answerLines (raw : List Char) : List (List Char) :=
  pySplitlines (cleanedBody (cutAnswer raw))

/-!
### Fetch-request scan (`WEB_SITE:` lines) and the consolidated fetch
-/

/-- The reserved site-request label. -/
def webLabel : List Char := "WEB_SITE:".data

/-- The `WEB_SITE:` scan of `generate_answer`.  For each line whose upper
case starts with the label, the code takes the text after the first colon
and indexes the first whitespace token: `rest.strip().split()[0]`.  When
there is no token this raises `IndexError`, modelled by `Except.error ()`. -/
def scanWebSites : List (List Char) → Except Unit (List (List Char))
  | [] => Except.ok []
  | l :: rest =>
    if hasPref webLabel (pyUpper l) then
      match listFind [':'] l with
      | none => Except.error ()
      | some ci =>
        match pyWords (l.drop (ci + 1)) with
        | [] => Except.error ()
        | d :: _ =>
          if d = [] then scanWebSites rest
          else
            match scanWebSites rest with
            | Except.ok ds => Except.ok (d :: ds)
            | Except.error e => Except.error e
    else scanWebSites rest

/-- The fixed separator heading under which the internet summary is
appended. -/
def internetHeading : List Char := "----\nInternet helper summary:\n".data

/-- The fetch stage of `generate_answer`: scan the pre-filtered line set,
and when any site was requested make one consolidated call to the fetch
collaborator (`summaryOf`) and append its summary under the fixed
heading. -/
def webStage (finalAnswer : List Char) (lines : List (List Char))
    (summaryOf : List (List Char) → List Char) : Except Unit (List Char × List (List Char)) :=
  match scanWebSites lines with
  | Except.error e => Except.error e
  | Except.ok sites =>
    Except.ok
      (if sites = [] then finalAnswer
       else finalAnswer ++ "\n\n".data ++ internetHeading ++ summaryOf sites,
       sites)

/-- Fuel-indexed `final_answer.split("\n\n")`. -/
def splitParaF : Nat → List Char → List (List Char)
  | 0, s => [s]
  | fuel + 1, s =>
    match listFind "\n\n".data s with
    | none => [s]
    | some i => s.take i :: splitParaF fuel (s.drop (i + 2))

/-- Python `s.split("\n\n")`. -/
def splitParas (s : List Char) : List (List Char) := splitParaF s.length s

/-- The paragraph clamp of `generate_answer`: keep at most the first three
non-empty stripped paragraphs, leaving the text untouched when there are
at most three. -/
def clampParagraphs (t : List Char) : List Char :=
  let paras := (splitParas t).filterMap (fun p =>
    let s := pyStrip p
    if s = [] then none else some s)
  if paras.length > 3 then pyJoin "\n\n".data (paras.take 3) else t

/-- The generic safe default substituted when post-processing leaves the
visible text empty. -/
def genericSafeAnswer : List Char :=
  ("I was not able to generate a detailed answer this time. " ++
   "Choose the option that is safest, most stable, and moves you " ++
   "closer to your long-term goals.").data

/-!
### Live configuration handler (`decision_engine._handle_config_command`)

`config.json` is modelled as a record; the environment-derived defaults
`LLAMA_TOKENS_DEFAULT` / `LLAMA_TIMEOUT_DEFAULT` are parameters.  A
non-list `allowed_sites` entry behaves exactly like an absent one in the
source, so the field is a plain list.
-/

/-- Persistent runtime configuration (`config.json`). -/
structure RuntimeCfg where
  llama_tokens : Option Int := none
  llama_timeout : Option Int := none
  allowed_sites : List (List Char) := []
deriving DecidableEq

/-- `decision_engine._effective_llama_params`. -/
def effective_llama_params (tokensDefault timeoutDefault : Int) (cfg : RuntimeCfg) : Int × Int :=
  (cfg.llama_tokens.getD tokensDefault, cfg.llama_timeout.getD timeoutDefault)

/-- Decimal digits of an integer, Python `str(n)` for `int`. -/
def intChars (n : Int) : List Char := (toString n).data

/-- Response text of the `RESET` branch. -/
def resetResp (t u : Int) : List Char :=
  "Configuration reset to defaults.\nLLAMA_TOKENS: ".data ++ intChars t ++
  "\nLLAMA_TIMEOUT: ".data ++ intChars u

/-- Response text of the `SHOW` branch. -/
def showResp (t u : Int) : List Char :=
  "Current configuration:\nLLAMA_TOKENS: ".data ++ intChars t ++
  "\nLLAMA_TIMEOUT: ".data ++ intChars u

/-- Response text of the assignment branch. -/
def updatedResp (t u : Int) : List Char :=
  "Settings updated.\nLLAMA_TOKENS: ".data ++ intChars t ++
  "\nLLAMA_TIMEOUT: ".data ++ intChars u

/-- Lexicographic order on code points, Python `sorted` on strings. -/
def lexLe : List Char → List Char → Bool
  | [], _ => true
  | _ :: _, [] => false
  | a :: as, b :: bs =>
    if a.toNat < b.toNat then true
    else if b.toNat < a.toNat then false
    else lexLe as bs

/-- Insert into a lexicographically sorted list. -/
def insLex (x : List Char) : List (List Char) → List (List Char)
  | [] => [x]
  | y :: ys => if lexLe x y then x :: y :: ys else y :: insLex x ys

/-- Insertion sort by `lexLe`. -/
def insSortLex : List (List Char) → List (List Char)
  | [] => []
  | x :: xs => insLex x (insSortLex xs)

/-- `decision_engine._allowed_sites`: the set of stripped, lower-cased,
non-empty entries of `allowed_sites` (as a duplicate-free list). -/
def allowed_sites_norm (cfg : RuntimeCfg) : List (List Char) :=
  ((cfg.allowed_sites.map (fun s => pyLower (pyStrip s))).filter
    (fun s => !s.isEmpty)).dedup

/-- Response text of the `LIST_SITES` branch (`sorted(_allowed_sites(cfg))`). -/
def listSitesResp (cfg : RuntimeCfg) : List Char :=
  let sites := insSortLex (allowed_sites_norm cfg)
  if sites = [] then "No allowed sites configured yet.".data
  else "Allowed sites:\n".data ++ pyJoin ['\n'] (sites.map (fun s => "- ".data ++ s))

/-- Value of a digit sequence with single underscores allowed between
digits, per Python `int(str)`. -/
def pyDigitsGo (acc : Nat) : List Char → Option Nat
  | [] => some acc
  | '_' :: c :: rest =>
    if c.isDigit then pyDigitsGo (acc * 10 + (c.toNat - 48)) rest else none
  | c :: rest =>
    if c.isDigit then pyDigitsGo (acc * 10 + (c.toNat - 48)) rest else none

/-- Value of a non-empty digit sequence (first character must be a digit). -/
def pyDigitsVal : List Char → Option Nat
  | [] => none
  | c :: rest => if c.isDigit then pyDigitsGo (c.toNat - 48) rest else none

/-- Python `int(val)` on an already stripped string: optional sign, then
digits. -/
def parsePyInt (s : List Char) : Option Int :=
  match s with
  | '+' :: rest => (pyDigitsVal rest).map (fun n => (n : Int))
  | '-' :: rest => (pyDigitsVal rest).map (fun n => -(n : Int))
  | _ => (pyDigitsVal s).map (fun n => (n : Int))

/-- The `KEY=VALUE` assignment loop of `_handle_config_command`. -/
def parseAssignments (body : List Char) (cfg : RuntimeCfg) : RuntimeCfg :=
  (pyWords body).foldl
    (fun c part =>
      match listFind ['='] part with
      | none => c
      | some i =>
        let key := part.take i
        let val := pyStrip (part.drop (i + 1))
        if val = [] then c
        else
          let keyU := pyUpper (pyStrip key)
          if keyU = "LLAMA_TOKENS".data then
            match parsePyInt val with
            | some n => { c with llama_tokens := some n }
            | none => c
          else if keyU = "LLAMA_TIMEOUT".data then
            match parsePyInt val with
            | some n => { c with llama_timeout := some n }
            | none => c
          else if keyU = "ADD_SITE".data then
            let dom := pyLower val
            if c.allowed_sites.contains dom then c
            else { c with allowed_sites := c.allowed_sites ++ [dom] }
          else c)
    cfg

/-- `decision_engine._handle_config_command`.  Returns
`(handled, response, newCfg)`.  The `TYXWSVF`/`NWSYXF` branch only writes
a marker file and falls through, so it has no effect on the returned
triple and is not represented. -/
def handle_config_command (tD uD : Int) (raw : List Char) (cfg : RuntimeCfg) :
    Bool × List Char × RuntimeCfg :=
  let q := pyStrip raw
  let upper := pyUpper q
  if !(hasPref "CONFIG:".data upper) then (false, [], cfg)
  else
    let body := pyStrip (q.drop 7)
    let bU := pyUpper body
    if pyContains bU "RESET_DEFAULTS".data || bU = "RESET".data then
      let tt := effective_llama_params tD uD {}
      (true, resetResp tt.1 tt.2, {})
    else if hasPref "LIST_SITES".data bU then
      (true, listSitesResp cfg, cfg)
    else if hasPref "SHOW".data bU then
      let tt := effective_llama_params tD uD cfg
      (true, showResp tt.1 tt.2, cfg)
    else
      let newCfg := parseAssignments body cfg
      let tt := effective_llama_params tD uD newCfg
      (true, updatedResp tt.1 tt.2, newCfg)

/-!
### The answer-generation pipeline (`decision_engine.generate_answer`)

File reads (`facts.txt`, `goals.txt`, `scratchpad.json`, the nncpnet
status file) and the subprocess are I/O and enter as parameters:
`nncpSummary` is the text `_summarize_nncpnet_status()` would produce,
`sub` is the observable llama subprocess result, and `summaryOf` is the
fetch collaborator `fetch_from_sites(allowed, sites, question)` with
`allowed` and `question` already supplied.  The scratchpad content is
read by the source but never used, so it is omitted.  The `IndexError`
raised by the `WEB_SITE:` scan on a bare label line surfaces as
`Except.error ()`.
-/

/-- `decision_engine.generate_answer`. -/
def generate_answer_core (tD uD : Int) (rq : Option (List Char)) (nncpSummary : List Char)
    (cfg : RuntimeCfg) (facts goals : List Char)
    (modelExists llamaExists ramTooLow : Bool) (sub : SubprocResult)
    (summaryOf : List (List Char) → List Char) : Except Unit (List Char) :=
  let question := pyStrip
    (match rq with
     | none => "respond with CIAARQE".data
     | some q => if q = [] then "respond with CIAARQE".data else q)
  let qnorm := pyJoin [' '] (pyWords (pyLower question))
  if qnorm = "nncpnet status".data then Except.ok nncpSummary
  else
    let hc := handle_config_command tD uD question cfg
    if hc.1 then Except.ok hc.2.1
    else
      let raw := run_llama modelExists llamaExists ramTooLow sub
      if raw = llmErrorS || raw = llmRamLimitS then
        Except.ok (fallback_answer question facts goals)
      else
        let lines := answerLines raw
        let fa1 := roadmapVisible lines
        match webStage fa1 lines summaryOf with
        | Except.error e => Except.error e
        | Except.ok (fa2, _) =>
          let fa3 := clampParagraphs fa2
          Except.ok (if pyStrip fa3 = [] then genericSafeAnswer else fa3)

/-!
### Flood/status state machine (`status_manager.py`)

Timestamps are modelled as whole seconds (`Int`).  `last_sent_ts` is
stored by the source as an ISO string and parsed back with
`datetime.fromisoformat`; an absent, empty or unparseable value makes
`_seconds_since_last_send` return its `999999.0` sentinel, so those cases
are all modelled by `none`.
-/

/-- `status_manager.StatusState`. -/
structure StatusState where
  total_sent : Int := 0
  last_sent_ts : Option Int := none
  last_received_request_id : Option (List Char) := none
  last_status_hour : Option (List Char) := none
  last_error : Option (List Char) := none
deriving DecidableEq

/-- `status_manager.record_sent_email` (`utcnow` enters as `now`). -/
def record_sent_email (s : StatusState) (now : Int) : StatusState :=
  { s with total_sent := s.total_sent + 1, last_sent_ts := some now }

/-- `status_manager.record_received_request`. -/
def record_received_request (s : StatusState) (rid : List Char) : StatusState :=
  { s with last_received_request_id := some rid }

/-- `status_manager.record_error`. -/
def record_error (s : StatusState) (msg : List Char) : StatusState :=
  { s with last_error := some msg }

/-- `status_manager._seconds_since_last_send`. -/
def seconds_since_last_send (s : StatusState) (now : Int) : Int :=
  match s.last_sent_ts with
  | none => 999999
  | some last => now - last

/-- `status_manager.can_send_now`. -/
def can_send_now (s : StatusState) (now : Int) (min_interval_seconds : Int) : Bool :=
  decide (seconds_since_last_send s now ≥ min_interval_seconds)

/-- `status_manager.request_id_to_hour`: `request_id[:13]`. -/
def request_id_to_hour (rid : List Char) : List Char := rid.take 13

/-- Gregorian leap-year test. -/
def isLeap (y : Nat) : Bool := (y % 4 = 0 && y % 100 ≠ 0) || y % 400 = 0

/-- Days in a month. -/
def daysInMonth (y m : Nat) : Nat :=
  if m = 2 then (if isLeap y then 29 else 28)
  else if m = 4 || m = 6 || m = 9 || m = 11 then 30
  else 31

/-- Days from 1970-01-01 to the given civil date (valid for year ≥ 1). -/
def daysFromCivil (y m d : Nat) : Int :=
  let y2 := if m ≤ 2 then y - 1 else y
  let era := y2 / 400
  let yoe := y2 % 400
  let mp := (m + 9) % 12
  let doy := (153 * mp + 2) / 5 + d - 1
  let doe := yoe * 365 + yoe / 4 - yoe / 100 + doy
  (era * 146097 + doe : Int) - 719468

/-- Numeric value of a decimal digit character, if it is one. -/
def digitVal (c : Char) : Option Nat :=
  if c.isDigit then some (c.toNat - 48) else none

/-- `datetime.strptime(s, "%Y-%m-%d-%H")` for the fixed-width hour-bucket
strings produced by `request_id_to_hour`, returning the epoch second at
which that hour starts.  Malformed strings parse to `none`
(`ValueError`). -/
def parseHourBucket (s : List Char) : Option Int :=
  match s with
  | [y1, y2, y3, y4, s1, m1, m2, s2, d1, d2, s3, h1, h2] =>
    if s1 = '-' && s2 = '-' && s3 = '-' then
      match digitVal y1, digitVal y2, digitVal y3, digitVal y4,
            digitVal m1, digitVal m2, digitVal d1, digitVal d2,
            digitVal h1, digitVal h2 with
      | some a, some b, some c, some d, some e, some f, some g, some h, some i, some j =>
        let y := a * 1000 + b * 100 + c * 10 + d
        let m := e * 10 + f
        let dd := g * 10 + h
        let hh := i * 10 + j
        if 1 ≤ y && 1 ≤ m && m ≤ 12 && 1 ≤ dd && dd ≤ daysInMonth y m && hh ≤ 23 then
          some (daysFromCivil y m dd * 86400 + hh * 3600)
        else none
      | _, _, _, _, _, _, _, _, _, _ => none
    else none
  | _ => none

/-- The UTC minute of an epoch second. -/
def nowMinute (now : Int) : Int := (now.ediv 60).emod 60

/-- `status_manager.should_send_status_email_now`. -/
def should_send_status_email_now (s : StatusState) (now : Int) : Bool :=
  match s.last_received_request_id with
  | none => false
  | some rid =>
    if rid = [] then false
    else
      let lastHour := request_id_to_hour rid
      if s.last_status_hour = some lastHour then false
      else if nowMinute now = 0 then true
      else
        match parseHourBucket lastHour with
        | some dt => decide (now - dt > 3900)
        | none => false

/-!
### Email sender (`email_sender.py`) and orchestrator loop (`main.py`)

SMTP success or failure is an I/O observation and enters as a boolean,
with the exception text as a parameter.
-/

/-- Flood-protection skip message of `send_dt_out`. -/
def floodMsg (rid : List Char) : List Char :=
  "Flood protection: skipping dt-out send for ".data ++ rid

/-- SMTP error message of `send_dt_out`. -/
def dtOutErrMsg (rid e : List Char) : List Char :=
  "SMTP error sending dt-out for ".data ++ rid ++ ": ".data ++ e

/-- `email_sender.send_dt_out`: returns whether the message was sent,
together with the updated state. -/
def send_dt_out (rid : List Char) (s : StatusState) (now : Int)
    (smtpOk : Bool) (smtpErr : List Char) : Bool × StatusState :=
  if !(can_send_now s now 10) then (false, record_error s (floodMsg rid))
  else if smtpOk then (true, s)
  else (false, record_error s (dtOutErrMsg rid smtpErr))

/-- SMTP error message of `send_status_email`. -/
def statusErrMsg (hourStr e : List Char) : List Char :=
  "SMTP error sending status email for hour ".data ++ hourStr ++ ": ".data ++ e

/-- `email_sender.send_status_email`: no-op without a received request;
on SMTP failure records the error and returns; only after a successful
send does it set `last_status_hour` to the hour bucket. -/
def send_status_email (s : StatusState) (smtpOk : Bool) (e : List Char) : StatusState :=
  match s.last_received_request_id with
  | none => s
  | some rid =>
    if rid = [] then s
    else
      let hourStr := request_id_to_hour rid
      if smtpOk then { s with last_status_hour := some hourStr }
      else record_error s (statusErrMsg hourStr e)

/-- Per-request decision-engine error message of `main.main_loop_once`. -/
def genErrMsg (rid e : List Char) : List Char :=
  "Error in decision engine for ".data ++ rid ++ ": ".data ++ e

/-- Observable outcome of processing one request in `main_loop_once`:
whether `generate_answer` raised (and the exception text), the send
time, and whether SMTP delivery succeeded. -/
structure ReqOutcome where
  rid : List Char
  genOk : Bool
  genErr : List Char
  now : Int
  smtpOk : Bool
  smtpErr : List Char

/-- The request-processing step of `main.main_loop_once`:
`record_sent_email` and `record_received_request` run only when
`send_dt_out` returned `True`. -/
def process_request (s : StatusState) (o : ReqOutcome) : StatusState :=
  if o.genOk then
    let r := send_dt_out o.rid s o.now o.smtpOk o.smtpErr
    if r.1 then record_received_request (record_sent_email r.2 o.now) o.rid else r.2
  else record_error s (genErrMsg o.rid o.genErr)

/-- One polling cycle of `main.main_loop_once` after the fetch step:
process each request, then run the digest check once. -/
def main_cycle (s : StatusState) (os : List ReqOutcome) (now2 : Int)
    (digestSmtpOk : Bool) (digestErr : List Char) : StatusState :=
  let s1 := os.foldl process_request s
  if should_send_status_email_now s1 now2 then send_status_email s1 digestSmtpOk digestErr
  else s1

/-!
### Fetch collaborator (`web_worker.py`)

HTTP is I/O: `webGet dom` stands for the body text obtained for the
domain (`requests.get` with the byte cap and decode applied), or the
`repr` of the exception on failure.  The trailing `textwrap.wrap`
re-flow of `fetch_from_sites` is presentation only and is not modelled;
the per-domain summary lines are.
-/

/-- `web_worker._normalize_domain`'s URL branch: the hostname of a
`scheme://[user@]host[:port]/...`-shaped URL (approximating
`urlparse(raw).hostname` for such URLs). -/
def urlHostname (r : List Char) : List Char :=
  match listFind "://".data r with
  | none => []
  | some i =>
    let rest := r.drop (i + 3)
    let netloc := rest.takeWhile (fun c => !(c == '/' || c == '?' || c == '#'))
    let hostPort := (netloc.reverse.takeWhile (fun c => c != '@')).reverse
    let host := hostPort.takeWhile (fun c => c != ':')
    pyLower host

/-- `web_worker._normalize_domain`. -/
def normalizeDomain (raw : List Char) : List Char :=
  let r := pyStrip raw
  if r = [] then []
  else if pyContains r "://".data then urlHostname r
  else pyLower r

/-- `web_worker._extract_text` state machine. -/
def extractTextGo (inside : Bool) : List Char → List Char
  | [] => []
  | c :: t =>
    if c = '<' then extractTextGo true t
    else if c = '>' then extractTextGo false t
    else if inside then extractTextGo inside t
    else c :: extractTextGo inside t

/-- `web_worker._extract_text`. -/
def extract_text (html : List Char) : List Char := extractTextGo false html

/-- The snippet construction of `fetch_from_sites`: strip tags, collapse
whitespace, truncate to 2000 characters. -/
def snippetOf (content : List Char) : List Char :=
  let text := extract_text content
  let s1 := (pyStrip text).map (fun c => if c = '\x0d' then ' ' else c)
  let s2 := s1.map (fun c => if c = '\n' then ' ' else c)
  let snippet := pyJoin [' '] (pyWords s2)
  if snippet.length > 2000 then snippet.take 2000 ++ "...".data else snippet

/-- Skip line for a domain missing from the allow-list. -/
def skipLine (dom : List Char) : List Char :=
  "[SKIP] ".data ++ dom ++ " is not in allowed sites.".data

/-- Summary line for a fetched domain. -/
def okLine (dom snippet : List Char) : List Char :=
  "[".data ++ dom ++ "] ".data ++ snippet

/-- Error line for a failed fetch. -/
def errLine (dom e : List Char) : List Char :=
  "[ERROR] ".data ++ dom ++ ": ".data ++ e

/-- The per-domain loop of `web_worker.fetch_from_sites` over the
normalized requested domains, given the normalized allow set. -/
def fetchLines (allowedNorm : List (List Char))
    (webGet : List Char → Except (List Char) (List Char)) :
    List (List Char) → List (List Char)
  | [] => []
  | dom :: rest =>
    if dom = [] then fetchLines allowedNorm webGet rest
    else if !(allowedNorm.contains dom) then
      skipLine dom :: fetchLines allowedNorm webGet rest
    else
      match webGet dom with
      | Except.ok content => okLine dom (snippetOf content) :: fetchLines allowedNorm webGet rest
      | Except.error e => errLine dom e :: fetchLines allowedNorm webGet rest

/-- The summary lines of `fetch_from_sites(allowed_sites, requested_sites, _)`:
both inputs are normalized, the allow set is duplicate-free. -/
def fetch_lines_of (allowed requested : List (List Char))
    (webGet : List Char → Except (List Char) (List Char)) : List (List Char) :=
  fetchLines ((allowed.map normalizeDomain).dedup) webGet (requested.map normalizeDomain)

/-! ### Helper lemmas about the roadmap loop and visible text -/

theorem roadmapLoopF_none {line : List Char} (h : listFind roadmapKw line = none) :
    ∀ fuel, roadmapLoopF fuel line = (line, []) := by
  intro fuel
  cases fuel with
  | zero => rfl
  | succ f => simp [roadmapLoopF, h]

theorem roadmapLoop_one_step {l : List Char} {i : Nat} (h : listFind roadmapKw l = some i) :
    roadmapLoop l = (pyRstrip (l.take i),
      if pyStrip (l.drop (i + roadmapKw.length)) = [] then []
      else [pyStrip (l.drop (i + roadmapKw.length))]) := by
  have hkw : roadmapKw ≠ [] := by decide
  have hbef : listFind roadmapKw (pyRstrip (l.take i)) = none :=
    noOcc_pyRstrip (noOcc_take_first hkw h)
  rw [roadmapLoop]
  simp only [roadmapLoopF, h]
  rw [roadmapLoopF_none hbef]
  simp

theorem roadmapLoop_fst_noOcc (l : List Char) :
    listFind roadmapKw (roadmapLoop l).1 = none := by
  cases h : listFind roadmapKw l with
  | none =>
    rw [roadmapLoop, roadmapLoopF_none h]
    exact h
  | some i =>
    rw [roadmapLoop_one_step h]
    exact noOcc_pyRstrip (noOcc_take_first (by decide) h)

theorem visLine_eq_some {a x : List Char} (h : visLine a = some x) :
    x = pyStrip (roadmapLoop a).1 ∧ x ≠ [] := by
  simp only [visLine] at h
  by_cases hv : pyStrip (roadmapLoop a).1 = []
  · simp [hv] at h
  · rw [if_neg hv] at h
    injection h with hx
    exact ⟨hx.symm, hx ▸ hv⟩

theorem roadmapVisible_noOcc (lines : List (List Char)) :
    listFind roadmapKw (roadmapVisible lines) = none := by
  have hkw : roadmapKw ≠ [] := by decide
  have hnl : '\n' ∉ roadmapKw := by decide
  apply noOcc_pyStrip
  apply noOcc_pyJoin hkw hnl
  intro x hx
  obtain ⟨a, _, hva⟩ := List.mem_filterMap.mp hx
  obtain ⟨hxa, _⟩ := visLine_eq_some hva
  rw [hxa]
  exact noOcc_pyStrip (roadmapLoop_fst_noOcc a)

theorem pyJoin_strip_fix {V : List (List Char)}
    (h : ∀ x ∈ V, (∃ y, x = pyStrip y) ∧ x ≠ []) :
    pyStrip (pyJoin ['\n'] V) = pyJoin ['\n'] V := by
  cases hV : V with
  | nil => rfl
  | cons v vs =>
    apply pyStrip_eq_self
    · intro c t hct
      obtain ⟨⟨y, hy⟩, hne⟩ := h v (by simp [hV])
      cases hv0 : v with
      | nil => exact absurd hv0 hne
      | cons cv tv =>
        obtain ⟨r, hr⟩ := @pyJoin_head_cons ['\n'] v vs cv tv hv0
        rw [hct] at hr
        obtain rfl : c = cv := by
          have := hr.symm
          cases this
          rfl
        apply pyStrip_head_not_space (v := y)
        rw [← hy, hv0]
    · intro c t hct
      have hvne : (v :: vs : List (List Char)) ≠ [] := by simp
      set w := (v :: vs).getLast hvne with hw
      have hlast : (v :: vs).getLast? = some w := List.getLast?_eq_getLast _ hvne
      have hwmem : w ∈ v :: vs := List.getLast_mem hvne
      obtain ⟨⟨y, hy⟩, hne⟩ := h w (by simp [hV, hwmem])
      cases hwr : w.reverse with
      | nil =>
        exact absurd (by simpa using congrArg List.reverse hwr) hne
      | cons cw tw =>
        obtain ⟨r, hr⟩ := @pyJoin_revhead ['\n'] (v :: vs) w cw tw hlast hwr
        rw [hct] at hr
        obtain rfl : c = cw := by
          have := hr.symm
          cases this
          rfl
        apply pyStrip_revhead_not_space (v := y)
        rw [← hy, hwr]

/-! ### Helper lemmas about the word splitter and the site scan -/

theorem wordsAux_ne_nil :
    ∀ (s acc : List Char) (x : List Char), x ∈ wordsAux acc s → x ≠ [] := by
  intro s
  induction s with
  | nil =>
    intro acc x hx
    by_cases hacc : acc = []
    · simp [wordsAux, hacc] at hx
    · simp only [wordsAux, if_neg hacc, List.mem_singleton] at hx
      subst hx
      simpa using hacc
  | cons c t ih =>
    intro acc x hx
    simp only [wordsAux] at hx
    by_cases hc : pyIsSpace c = true
    · rw [if_pos hc] at hx
      by_cases hacc : acc = []
      · rw [if_pos hacc] at hx
        exact ih [] x hx
      · rw [if_neg hacc] at hx
        rcases List.mem_cons.mp hx with rfl | hmem
        · simpa using hacc
        · exact ih [] x hmem
    · rw [if_neg hc] at hx
      exact ih (c :: acc) x hx

theorem pyWords_ne_nil {s x : List Char} (hx : x ∈ pyWords s) : x ≠ [] :=
  wordsAux_ne_nil s [] x hx

theorem scanWebSites_count :
    ∀ (lines sites : List (List Char)), scanWebSites lines = Except.ok sites →
      sites.length = lines.countP (fun l => hasPref webLabel (pyUpper l)) := by
  intro lines
  induction lines with
  | nil =>
    intro sites h
    simp only [scanWebSites] at h
    injection h with h2
    simp [← h2]
  | cons l rest ih =>
    intro sites h
    simp only [scanWebSites] at h
    by_cases hp : hasPref webLabel (pyUpper l) = true
    · rw [if_pos hp] at h
      cases hci : listFind [':'] l with
      | none => rw [hci] at h; exact absurd h (by simp)
      | some ci =>
        rw [hci] at h
        dsimp only at h
        cases hw : pyWords (l.drop (ci + 1)) with
        | nil => rw [hw] at h; exact absurd h (by simp)
        | cons d ws =>
          rw [hw] at h
          dsimp only at h
          have hd : d ≠ [] := pyWords_ne_nil (hw ▸ List.mem_cons_self d ws)
          rw [if_neg hd] at h
          cases hrest : scanWebSites rest with
          | error e => rw [hrest] at h; exact absurd h (by simp)
          | ok ds =>
            rw [hrest] at h
            dsimp only at h
            injection h with h2
            rw [← h2]
            have hleft := ih ds hrest
            simp [List.countP_cons, hp, hleft]
    · rw [if_neg hp] at h
      have hleft := ih sites h
      simp [List.countP_cons, hp, hleft]

theorem fetchLines_congr {allowedNorm : List (List Char)}
    {g g2 : List Char → Except (List Char) (List Char)}
    (h : ∀ d, allowedNorm.contains d = true → g d = g2 d) :
    ∀ ds, fetchLines allowedNorm g ds = fetchLines allowedNorm g2 ds := by
  intro ds
  induction ds with
  | nil => rfl
  | cons dom rest ih =>
    simp only [fetchLines]
    by_cases hd : dom = []
    · rw [if_pos hd, if_pos hd, ih]
    · rw [if_neg hd, if_neg hd]
      by_cases hc : allowedNorm.contains dom = true
      · rw [hc, h dom hc]
        simp [ih]
      · have hc2 : allowedNorm.contains dom = false := by
          simpa using hc
        rw [hc2]
        simp [ih]

/-! ### Claim theorems -/

/-- C1 counterexample: the claim as stated fails because outcomes are
signalled in-band.  A timed-out generation whose salvaged partial output
is exactly the sentinel string `"[LLM_ERROR]"` is non-empty after
stripping, yet the invocation resolves to `HardFailure`, not
`Success`. -/
theorem run_llama_sentinel_collision :
    pyStrip llmErrorS ≠ []
    ∧ run_llama true true false (SubprocResult.timedOut (some llmErrorS)) = llmErrorS
    ∧ outcomeOf (run_llama true true false (SubprocResult.timedOut (some llmErrorS)))
        = GenOutcome.hardFailure := by
  refine ⟨by decide, by decide, by decide⟩

/-- C1 (amended): when a generation invocation hits the wall-clock
timeout with non-empty stripped partial output, `_run_llama` returns that
stripped partial text; unless that text is itself one of the two in-band
sentinel strings the invocation resolves to `Success` with it; an empty
salvage resolves to `HardFailure`; and in particular a timeout after
producing `"Partial answer about running."` yields `Success` with that
text. -/
theorem run_llama_timeout_salvage_amended (p : List Char)
    (h1 : pyStrip p ≠ []) (h2 : pyStrip p ≠ llmErrorS) (h3 : pyStrip p ≠ llmRamLimitS) :
    run_llama true true false (SubprocResult.timedOut (some p)) = pyStrip p
    ∧ outcomeOf (run_llama true true false (SubprocResult.timedOut (some p)))
        = GenOutcome.success (pyStrip p)
    ∧ run_llama true true false (SubprocResult.timedOut none) = llmErrorS
    ∧ outcomeOf (run_llama true true false
        (SubprocResult.timedOut (some "Partial answer about running.".data)))
        = GenOutcome.success "Partial answer about running.".data := by
  have hrun : run_llama true true false (SubprocResult.timedOut (some p)) = pyStrip p := by
    simp only [run_llama, Bool.and_self, Bool.not_true, Option.getD_some]
    rw [if_neg h1]
    rfl
  refine ⟨hrun, ?_, by decide, by decide⟩
  rw [hrun, outcomeOf, if_neg h2, if_neg h3]

/-- C1 witness. -/
theorem run_llama_timeout_salvage_amended_witness :
    run_llama true true false
        (SubprocResult.timedOut (some "Partial answer about running.".data))
      = pyStrip "Partial answer about running.".data
    ∧ outcomeOf (run_llama true true false
        (SubprocResult.timedOut (some "Partial answer about running.".data)))
      = GenOutcome.success (pyStrip "Partial answer about running.".data)
    ∧ run_llama true true false (SubprocResult.timedOut none) = llmErrorS
    ∧ outcomeOf (run_llama true true false
        (SubprocResult.timedOut (some "Partial answer about running.".data)))
      = GenOutcome.success "Partial answer about running.".data :=
  run_llama_timeout_salvage_amended "Partial answer about running.".data
    (by decide) (by decide) (by decide)

/-- C4 counterexample: the code treats a missing `last_sent_ts` as the
fixed sentinel of 999999 seconds, not as "infinitely long ago", so with
`minInterval = 1000000` the claim's "sending is always allowed" fails. -/
theorem can_send_now_large_interval_counterexample :
    (StatusState.mk 0 none none none none).last_sent_ts = none
    ∧ can_send_now (StatusState.mk 0 none none none none) 0 1000000 = false := by
  refine ⟨rfl, by decide⟩

/-- C4 (amended): `can_send_now` returns true iff the elapsed seconds —
taken to be the sentinel 999999 when `last_sent_ts` is missing — are at
least `minInterval`; a missing `last_sent_ts` therefore allows sending
exactly for `minInterval ≤ 999999`, not unconditionally. -/
theorem can_send_now_amended :
    ∀ (s : StatusState) (now m : Int),
      can_send_now s now m = true ↔
        ((s.last_sent_ts = none ∧ m ≤ 999999)
         ∨ (∃ t, s.last_sent_ts = some t ∧ now - t ≥ m)) := by
  intro s now m
  rw [can_send_now, seconds_since_last_send]
  cases hts : s.last_sent_ts with
  | none => simp
  | some t => simp

/-- C3: the fallback engine evaluates keyword predicates in fixed order
with first match winning — a non-security+ question containing "job"
(or "apply") always resolves to one of the two job-rule answers and
never to the run-rule answer — and the scenario
`"What are some good federal jobs?"` with empty memory returns the fixed
federal-jobs recommendation, which does not contain `"schedule a"`. -/
theorem fallback_order_federal_jobs :
    (∀ (q f g : List Char),
        pyContains (pyLower q) "security+".data = false →
        (pyContains (pyLower q) "job".data || pyContains (pyLower q) "apply".data) = true →
        (fallback_answer q f g = schedAnswer ∨ fallback_answer q f g = focusAnswer)
        ∧ fallback_answer q f g ≠ runAnswer)
    ∧ fallback_answer "What are some good federal jobs?".data [] [] = focusAnswer
    ∧ pyContains focusAnswer "schedule a".data = false := by
  refine ⟨?_, by decide, by decide⟩
  intro q f g h1 h2
  simp only [fallback_answer]
  rw [if_neg (by simp [h1]), if_pos h2]
  by_cases hs : (pyContains (pyLower (f ++ '\n' :: g)) "schedule a".data
      || pyContains (pyLower q) "schedule a".data) = true
  · rw [if_pos hs]
    exact ⟨Or.inl (by decide), by decide⟩
  · rw [if_neg hs]
    exact ⟨Or.inr (by decide), by decide⟩

/-- C3 witness: a question containing both "job" and "run" resolves by
the job rule. -/
theorem fallback_order_federal_jobs_witness :
    (fallback_answer "Which job lets me run more?".data [] [] = schedAnswer
     ∨ fallback_answer "Which job lets me run more?".data [] [] = focusAnswer)
    ∧ fallback_answer "Which job lets me run more?".data [] [] ≠ runAnswer :=
  fallback_order_federal_jobs.1 "Which job lets me run more?".data [] []
    (by decide) (by decide)

/-- C8: handling `CONFIG: RESET` reports handled, resets the
configuration to the built-in default record, whose effective parameters
are the defaults, and a subsequent `CONFIG: SHOW` on the resulting
configuration reports exactly the default token budget and timeout. -/
theorem config_reset_then_show_defaults :
    ∀ (tD uD : Int) (cfg : RuntimeCfg),
      (handle_config_command tD uD "CONFIG: RESET".data cfg).1 = true
      ∧ (handle_config_command tD uD "CONFIG: RESET".data cfg).2.2 = ({} : RuntimeCfg)
      ∧ effective_llama_params tD uD
          (handle_config_command tD uD "CONFIG: RESET".data cfg).2.2 = (tD, uD)
      ∧ (handle_config_command tD uD "CONFIG: SHOW".data
            (handle_config_command tD uD "CONFIG: RESET".data cfg).2.2).2.1
        = "Current configuration:\nLLAMA_TOKENS: ".data ++ intChars tD
          ++ "\nLLAMA_TIMEOUT: ".data ++ intChars uD := by
  intro tD uD cfg
  exact ⟨rfl, rfl, rfl, rfl⟩

/-- C2 counterexample: the claim as stated fails.  The input
`"x roadmap a roadmap b"` contains two occurrences of the keyword but
extraction produces a single `LearnedFact` directive — the entire text
after the first keyword, which itself still contains the keyword — and
only the text before the first occurrence stays visible. -/
theorem roadmap_multiple_occurrence_counterexample :
    countOccur roadmapKw "x roadmap a roadmap b".data = 2
    ∧ (extractRoadmap "x roadmap a roadmap b".data).2 = ["a roadmap b".data]
    ∧ pyContains "a roadmap b".data roadmapKw = true
    ∧ (extractRoadmap "x roadmap a roadmap b".data).1 = "x".data := by
  refine ⟨by decide, by decide, by decide, by decide⟩

/-- C2 (amended): on every line only the first keyword occurrence splits
the line — the text before it (right-stripped) stays visible and the
entire stripped remainder after the keyword becomes a single
`LearnedFact` directive when non-empty (none when empty), so a text with
N occurrences can produce fewer than N directives — and the visible text
produced by extraction contains zero occurrences of the keyword. -/
theorem roadmap_extraction_amended :
    (∀ body : List Char, listFind roadmapKw (extractRoadmap body).1 = none)
    ∧ (∀ (l : List Char) (i : Nat), listFind roadmapKw l = some i →
        roadmapLoop l = (pyRstrip (l.take i),
          if pyStrip (l.drop (i + roadmapKw.length)) = [] then []
          else [pyStrip (l.drop (i + roadmapKw.length))])) := by
  constructor
  · intro body
    exact roadmapVisible_noOcc (pySplitlines body)
  · intro l i h
    exact roadmapLoop_one_step h

/-- C2 witness. -/
theorem roadmap_extraction_amended_witness :
    roadmapLoop "see roadmap eat well".data
      = (pyRstrip ("see roadmap eat well".data.take 4),
         if pyStrip ("see roadmap eat well".data.drop (4 + roadmapKw.length)) = [] then []
         else [pyStrip ("see roadmap eat well".data.drop (4 + roadmapKw.length))]) :=
  roadmap_extraction_amended.2 "see roadmap eat well".data 4 (by decide)

/-- C7: the pipeline does not always return an answer.  When the
generation output contains a line that is exactly the site-request label
with no domain (`"WEB_SITE:"`), the scan `rest.strip().split()[0]`
raises `IndexError` (`Except.error`), the orchestrator records the error
and moves on, and the requester receives nothing — contradicting the
claim that every path yields a non-empty answer. -/
theorem generate_answer_websitebare_raises :
    generate_answer_core 64 240 (some "hello".data) [] {} [] [] true true false
      (SubprocResult.completed (some "WEB_SITE:".data)) (fun _ => [])
      = Except.error () := by
  rfl

/-- C5: the hourly digest decision returns false when no request has ever
been received or when the recorded last-status hour equals the hour
bucket (the 13-character date+hour prefix of the last received request
id); otherwise it returns true exactly when the current UTC minute is 0
(top of the hour) or more than 65 minutes have elapsed since that hour
bucket started. -/
theorem should_send_status_email_now_spec :
    ∀ (s : StatusState) (now : Int),
      should_send_status_email_now s now = true ↔
        ∃ rid, s.last_received_request_id = some rid ∧ rid ≠ []
          ∧ s.last_status_hour ≠ some (request_id_to_hour rid)
          ∧ (nowMinute now = 0
             ∨ ∃ t, parseHourBucket (request_id_to_hour rid) = some t ∧ now - t > 3900) := by
  intro s now
  rw [should_send_status_email_now]
  cases hrid : s.last_received_request_id with
  | none => simp [hrid]
  | some rid =>
    dsimp only
    by_cases hnil : rid = []
    · simp [hrid, hnil]
    · rw [if_neg hnil]
      by_cases hhr : s.last_status_hour = some (request_id_to_hour rid)
      · simp [hrid, hnil, hhr]
      · rw [if_neg hhr]
        by_cases hmin : nowMinute now = 0
        · simp [hrid, hnil, hhr, hmin]
        · rw [if_neg hmin]
          cases hp : parseHourBucket (request_id_to_hour rid) with
          | none => simp [hrid, hnil, hhr, hmin, hp]
          | some t => simp [hrid, hnil, hhr, hmin, hp]

/-! ### Helper lemmas for the flood-state invariants -/

theorem process_request_total_le (s : StatusState) (o : ReqOutcome) :
    s.total_sent ≤ (process_request s o).total_sent := by
  by_cases hg : o.genOk = true
  · by_cases hcs : can_send_now s o.now 10 = true
    · by_cases hsm : o.smtpOk = true
      · simp only [process_request, send_dt_out, hg, hcs, hsm, record_sent_email,
          record_received_request, Bool.not_true, if_true, if_false,
          Bool.false_eq_true, ite_false, ite_true]
        omega
      · have h2 : o.smtpOk = false := by simpa using hsm
        simp [process_request, send_dt_out, hg, hcs, h2, record_error]
    · have h2 : can_send_now s o.now 10 = false := by simpa using hcs
      simp [process_request, send_dt_out, hg, h2, record_error]
  · have h2 : o.genOk = false := by simpa using hg
    simp [process_request, h2, record_error]

theorem foldl_total_le (os : List ReqOutcome) :
    ∀ s : StatusState, s.total_sent ≤ (os.foldl process_request s).total_sent := by
  induction os with
  | nil => intro s; simp
  | cons o rest ih =>
    intro s
    calc s.total_sent ≤ (process_request s o).total_sent := process_request_total_le s o
      _ ≤ _ := ih (process_request s o)

theorem send_status_email_preserves (s : StatusState) (ok : Bool) (e : List Char) :
    (send_status_email s ok e).total_sent = s.total_sent
    ∧ (send_status_email s ok e).last_sent_ts = s.last_sent_ts := by
  rw [send_status_email]
  cases hrid : s.last_received_request_id with
  | none => exact ⟨rfl, rfl⟩
  | some rid =>
    dsimp only
    by_cases hnil : rid = []
    · rw [if_pos hnil]; exact ⟨rfl, rfl⟩
    · rw [if_neg hnil]
      by_cases hok : ok = true
      · rw [if_pos hok]; exact ⟨rfl, rfl⟩
      · rw [if_neg hok]; exact ⟨rfl, rfl⟩

theorem process_request_last_sent (s : StatusState) (o : ReqOutcome) :
    (process_request s o).last_sent_ts =
      if o.genOk && (can_send_now s o.now 10 && o.smtpOk) then some o.now
      else s.last_sent_ts := by
  by_cases hg : o.genOk = true
  · by_cases hcs : can_send_now s o.now 10 = true
    · by_cases hsm : o.smtpOk = true
      · simp [process_request, send_dt_out, hg, hcs, hsm, record_sent_email,
          record_received_request]
      · have h2 : o.smtpOk = false := by simpa using hsm
        simp [process_request, send_dt_out, hg, hcs, h2, record_error]
    · have h2 : can_send_now s o.now 10 = false := by simpa using hcs
      simp [process_request, send_dt_out, hg, h2, record_error]
  · have h2 : o.genOk = false := by simpa using hg
    simp [process_request, h2, record_error]

/-- C9: across every polling cycle `total_sent` is monotonically
non-decreasing, `last_sent_ts` changes in a request step exactly when the
decision engine succeeded, flood control allowed the send and the SMTP
delivery succeeded (`record_sent_email` runs only after a successful
send), and the digest step never touches `last_sent_ts` or
`total_sent`. -/
theorem flood_state_monotone_and_send_gated :
    (∀ (s : StatusState) (os : List ReqOutcome) (now2 : Int) (dOk : Bool) (dErr : List Char),
        s.total_sent ≤ (main_cycle s os now2 dOk dErr).total_sent)
    ∧ (∀ (s : StatusState) (o : ReqOutcome),
        (process_request s o).last_sent_ts =
          if o.genOk && (can_send_now s o.now 10 && o.smtpOk) then some o.now
          else s.last_sent_ts)
    ∧ (∀ (s : StatusState) (ok : Bool) (e : List Char),
        (send_status_email s ok e).last_sent_ts = s.last_sent_ts
        ∧ (send_status_email s ok e).total_sent = s.total_sent) := by
  refine ⟨?_, process_request_last_sent, fun s ok e =>
    ⟨(send_status_email_preserves s ok e).2, (send_status_email_preserves s ok e).1⟩⟩
  intro s os now2 dOk dErr
  simp only [main_cycle]
  by_cases hd : should_send_status_email_now (os.foldl process_request s) now2 = true
  · rw [if_pos hd, (send_status_email_preserves _ dOk dErr).1]
    exact foldl_total_le os s
  · rw [if_neg hd]
    exact foldl_total_le os s

/-- C10: when the attempt to send the hourly digest fails, the error is
recorded and `last_status_hour` is left unchanged (so the digest stays
due and is retried later); `last_status_hour` is set to the hour bucket
only after the digest send completed successfully. -/
theorem status_email_failure_preserves_hour :
    ∀ (s : StatusState) (e : List Char),
      (send_status_email s false e).last_status_hour = s.last_status_hour
      ∧ (∀ rid, s.last_received_request_id = some rid → rid ≠ [] →
          (send_status_email s false e).last_error
            = some (statusErrMsg (request_id_to_hour rid) e)
          ∧ (send_status_email s true e).last_status_hour = some (request_id_to_hour rid))
      ∧ (∀ ok : Bool,
          (send_status_email s ok e).last_status_hour ≠ s.last_status_hour → ok = true) := by
  intro s e
  refine ⟨?_, ?_, ?_⟩
  · rw [send_status_email]
    cases hrid : s.last_received_request_id with
    | none => rfl
    | some rid =>
      dsimp only
      by_cases hnil : rid = []
      · rw [if_pos hnil]
      · rw [if_neg hnil, if_neg (by simp)]
        simp [record_error]
  · intro rid hrid hnil
    constructor
    · rw [send_status_email, hrid]
      dsimp only
      rw [if_neg hnil, if_neg (by simp)]
      simp [record_error]
    · rw [send_status_email, hrid]
      dsimp only
      rw [if_neg hnil, if_pos rfl]
  · intro ok h
    by_cases hok : ok = true
    · exact hok
    · exfalso
      apply h
      have h2 : ok = false := by simpa using hok
      subst h2
      rw [send_status_email]
      cases hrid : s.last_received_request_id with
      | none => rfl
      | some rid =>
        dsimp only
        by_cases hnil : rid = []
        · rw [if_pos hnil]
        · rw [if_neg hnil, if_neg (by simp)]
          simp [record_error]

/-- C10 witness. -/
theorem status_email_failure_preserves_hour_witness :
    (send_status_email
        (StatusState.mk 3 none (some "2025-11-18-091550".data) (some "x".data) none)
        false "boom".data).last_status_hour
      = (StatusState.mk 3 none (some "2025-11-18-091550".data) (some "x".data) none).last_status_hour
    ∧ (send_status_email
        (StatusState.mk 3 none (some "2025-11-18-091550".data) (some "x".data) none)
        false "boom".data).last_error
      = some (statusErrMsg (request_id_to_hour "2025-11-18-091550".data) "boom".data)
    ∧ (send_status_email
        (StatusState.mk 3 none (some "2025-11-18-091550".data) (some "x".data) none)
        true "boom".data).last_status_hour
      = some (request_id_to_hour "2025-11-18-091550".data) := by
  refine ⟨(status_email_failure_preserves_hour
      (StatusState.mk 3 none (some "2025-11-18-091550".data) (some "x".data) none)
      "boom".data).1,
    ((status_email_failure_preserves_hour
      (StatusState.mk 3 none (some "2025-11-18-091550".data) (some "x".data) none)
      "boom".data).2.1 "2025-11-18-091550".data rfl (by decide)).1,
    ((status_email_failure_preserves_hour
      (StatusState.mk 3 none (some "2025-11-18-091550".data) (some "x".data) none)
      "boom".data).2.1 "2025-11-18-091550".data rfl (by decide)).2⟩

/-- C6 counterexample: the claim as stated fails on two counts.  With the
generation output `"WEB_SITE: ssa.gov\nWEB_SITE: ssa.gov"` the scan
produces two `FetchRequest` directives for one distinct domain (no
deduplication), and the site-request line appears verbatim in the final
visible text (the code never removes these lines). -/
theorem web_site_lines_visible_counterexample :
    scanWebSites (answerLines "WEB_SITE: ssa.gov\nWEB_SITE: ssa.gov".data)
      = Except.ok ["ssa.gov".data, "ssa.gov".data]
    ∧ (["ssa.gov".data, "ssa.gov".data] : List (List Char)).dedup.length = 1
    ∧ listFind "WEB_SITE: ssa.gov".data
        (roadmapVisible (answerLines "WEB_SITE: ssa.gov\nWEB_SITE: ssa.gov".data))
      = some 0 := by
  refine ⟨by rfl, by decide, by decide⟩

/-- C6 (amended): every line of the pre-filtered line set whose upper
case begins with the site-request label contributes exactly one
`FetchRequest` directive (duplicate domains are repeated, not merged);
such lines remain in the final visible text (they are stripped but not
removed, provided they carry no fact marker); all directives feed at most
one consolidated fetch-collaborator call per response, whose summary is
appended under the fixed separator heading; and the collaborator filters
against the allow-list — its output never depends on what fetching a
domain outside the (normalized) allow set would return. -/
theorem web_site_directives_amended :
    (∀ (lines sites : List (List Char)),
        scanWebSites lines = Except.ok sites →
        sites.length = lines.countP (fun l => hasPref webLabel (pyUpper l)))
    ∧ (∀ (raw l : List Char), l ∈ answerLines raw →
        hasPref webLabel (pyUpper l) = true →
        listFind roadmapKw l = none → pyStrip l ≠ [] →
        listFind (pyStrip l) (roadmapVisible (answerLines raw)) ≠ none)
    ∧ (∀ (fa : List Char) (lines : List (List Char))
          (summaryOf : List (List Char) → List Char) (sites : List (List Char)),
        scanWebSites lines = Except.ok sites → sites ≠ [] →
        webStage fa lines summaryOf
          = Except.ok (fa ++ "\n\n".data ++ internetHeading ++ summaryOf sites, sites))
    ∧ (∀ (allowed req : List (List Char))
          (g g2 : List Char → Except (List Char) (List Char)),
        (∀ d, ((allowed.map normalizeDomain).dedup).contains d = true → g d = g2 d) →
        fetch_lines_of allowed req g = fetch_lines_of allowed req g2) := by
  refine ⟨scanWebSites_count, ?_, ?_, ?_⟩
  · intro raw l hl hlab hno hstrip
    have hloop : roadmapLoop l = (l, []) := by
      rw [roadmapLoop, roadmapLoopF_none hno]
    have hvis : visLine l = some (pyStrip l) := by
      simp only [visLine, hloop]
      rw [if_neg hstrip]
    have hmem : pyStrip l ∈ (answerLines raw).filterMap visLine :=
      List.mem_filterMap.mpr ⟨l, hl, hvis⟩
    obtain ⟨i, hi⟩ := @occurs_pyJoin_of_mem ['\n'] (pyStrip l) _ hmem
    have hfix : pyStrip (pyJoin ['\n'] ((answerLines raw).filterMap visLine))
        = pyJoin ['\n'] ((answerLines raw).filterMap visLine) := by
      apply pyJoin_strip_fix
      intro x hx
      obtain ⟨a, _, hva⟩ := List.mem_filterMap.mp hx
      obtain ⟨hxa, hne⟩ := visLine_eq_some hva
      exact ⟨⟨(roadmapLoop a).1, hxa⟩, hne⟩
    rw [roadmapVisible, hfix]
    exact listFind_isSome_of_occ hi
  · intro fa lines summaryOf sites hscan hne
    simp only [webStage, hscan]
    rw [if_neg hne]
  · intro allowed req g g2 h
    rw [fetch_lines_of, fetch_lines_of]
    exact fetchLines_congr h _

/-- C6 witness. -/
theorem web_site_directives_amended_witness :
    webStage "Hi".data ["WEB_SITE: ssa.gov".data] (fun _ => "SUMMARY".data)
      = Except.ok ("Hi".data ++ "\n\n".data ++ internetHeading ++ "SUMMARY".data,
          ["ssa.gov".data]) :=
  web_site_directives_amended.2.2.1 "Hi".data ["WEB_SITE: ssa.gov".data]
    (fun _ => "SUMMARY".data) ["ssa.gov".data] (by rfl) (by decide)
